import Mathlib

/-!
Verification of the Promethea library manager against its specification.

The development shallowly embeds, in Lean:
* the presentation-layer data shapes and functions of
  `src/features/library-table/index.tsx`, `src/features/no-database-dialog/index.tsx`
  and `src/main.ts` (TypeScript, translated function by function), and
* the storage core (schema from `architecture/0001-database.md`; the composite
  read/write operations are modelled from the specification, since the Rust
  backend behind the Tauri commands is not part of the frontend sources).

JavaScript strings are kept as Lean `String`; all string comparisons are done
on the underlying character lists so that every definition evaluates inside the
kernel.  JS `Date` values are modelled as integer timestamps, SQL `real` as `Rat`.
-/

namespace Promethea

/-! ### JS string primitives

`localeCompare(_, undefined, \x7b sensitivity: "base" \x7d)` is modelled as
case-insensitive lexicographic comparison of the character lists: "base"
sensitivity identifies characters differing only in case.  `chLower` is the
ASCII lowering of a character code. -/

/-- Lowercased code point of a character (ASCII case folding). -/
def chLower (c : Char) : Nat :=
  if 65 ≤ c.toNat ∧ c.toNat ≤ 90 then c.toNat + 32 else c.toNat

/-- Strict lexicographic order on lists of code points. -/
def natListLt : List Nat → List Nat → Bool
  | [], [] => false
  | [], _ :: _ => true
  | _ :: _, [] => false
  | a :: as, b :: bs => if a < b then true else if b < a then false else natListLt as bs

/-- Collation key of a JS string under "base" sensitivity: its lowercased code points. -/
def strKey (s : String) : List Nat := s.data.map chLower

/-- Model of `a.localeCompare(b, undefined, \x7b sensitivity: "base" \x7d)`:
negative, zero or positive according to the case-insensitive lexicographic
comparison of `a` and `b`. -/
def localeCompareBase (a b : String) : Int :=
  if natListLt (strKey a) (strKey b) then -1
  else if natListLt (strKey b) (strKey a) then 1
  else 0

theorem natListLt_irrefl (a : List Nat) : natListLt a a = false := by
  induction a with
  | nil => rfl
  | cons x xs ih => simp [natListLt, ih]

theorem natListLt_asymm : ∀ a b : List Nat,
    natListLt a b = true → natListLt b a = false
  | [], [], h => by simp [natListLt] at h
  | [], _ :: _, _ => rfl
  | _ :: _, [], h => by simp [natListLt] at h
  | a :: as, b :: bs, h => by
    simp only [natListLt] at h ⊢
    split_ifs at h ⊢ with h1 h2 h3 h4 <;> try omega
    all_goals simp_all [natListLt_asymm as bs]

theorem natListLt_trans : ∀ a b c : List Nat,
    natListLt a b = true → natListLt b c = true → natListLt a c = true
  | [], [], _, h, _ => by simp [natListLt] at h
  | [], _ :: _, [], _, h => by simp [natListLt] at h
  | [], _ :: _, _ :: _, _, _ => rfl
  | _ :: _, [], _, h, _ => by simp [natListLt] at h
  | _ :: _, _ :: _, [], _, h => by simp [natListLt] at h
  | a :: as, b :: bs, c :: cs, h1, h2 => by
    simp only [natListLt] at h1 h2 ⊢
    split_ifs at h1 h2 ⊢ <;> try omega
    all_goals simp_all [natListLt_trans as bs cs]

theorem natListLt_conn : ∀ a b : List Nat,
    natListLt a b = false → natListLt b a = false → a = b
  | [], [], _, _ => rfl
  | [], _ :: _, h, _ => by simp [natListLt] at h
  | _ :: _, [], _, h => by simp [natListLt] at h
  | a :: as, b :: bs, h1, h2 => by
    simp only [natListLt] at h1 h2
    split_ifs at h1 h2 with h3 h4 <;> try omega
    have : a = b := by omega
    subst this
    rw [natListLt_conn as bs h1 h2]

theorem localeCompareBase_neg_iff (a b : String) :
    localeCompareBase a b < 0 ↔ natListLt (strKey a) (strKey b) = true := by
  unfold localeCompareBase
  split_ifs with h1 h2 <;> simp_all <;> omega

theorem localeCompareBase_zero_iff (a b : String) :
    localeCompareBase a b = 0 ↔ strKey a = strKey b := by
  constructor
  · intro h
    unfold localeCompareBase at h
    split_ifs at h with h1 h2
    · exact absurd h (by decide)
    · exact natListLt_conn _ _ (by simpa using h1) (by simpa using h2)
  · intro h
    unfold localeCompareBase
    rw [h, natListLt_irrefl]
    simp

/-! ### Data shapes of the library table

Translated from `src/features/library-table/index.tsx` (the variant wired to
the backend): `SeriesAndVolumeRecord`, `AuthorRecord`, `BookRecord`.  The TS
annotations give `goodreads_id : number`; the storage schema declares that
column as optional (`UK`, nullable), so it is carried as `Option Nat`.  `Date`
fields are integer timestamps. -/

structure SeriesAndVolumeRecord where
  series : String
  sort : String
  volume : Rat
  goodreads_id : Option Nat
deriving DecidableEq, Repr

structure AuthorRecord where
  name : String
  sort : String
  goodreads_id : Option Nat
deriving DecidableEq, Repr

structure BookRecord where
  book_id : Nat
  title : String
  sort : String
  authors : List AuthorRecord
  series_and_volume : List SeriesAndVolumeRecord
  number_of_pages : Nat
  goodreads_id : Option Nat
  date_added : Nat
  date_published : Int
  date_modified : Nat
deriving DecidableEq, Repr

/-! ### Column functions of the library table -/

/-- Translation of the `title` column `sortingFn` (library-table/index.tsx:460-464):
compare the two rows' `sort` fields with `localeCompare` at "base" sensitivity.
The TS `?? ""` guards are no-ops here because `sort` is a non-null string. -/
def titleSortingFn (rowA rowB : BookRecord) : Int :=
  localeCompareBase rowA.sort rowB.sort

/-- Translation of the `authors[0].sort` access in the `authors` column
`sortingFn` (library-table/index.tsx:486-487).  In JS, `authors[0]` on an
empty array is `undefined` and the subsequent `.sort` access throws a
`TypeError`; `none` models that thrown exception.  The `?? ""` applies only
after a successful element access, so it does not prevent the throw. -/
def authorsSortAccess (r : BookRecord) : Option String :=
  r.authors.head?.map (fun a => a.sort)

/-- Translation of the `authors` column `sortingFn` (library-table/index.tsx:485-489):
`some` of the comparison when both element accesses succeed, `none` when
either row has no first author (the JS code throws). -/
def authorsSortingFn (rowA rowB : BookRecord) : Option Int :=
  match authorsSortAccess rowA, authorsSortAccess rowB with
  | some a, some b => some (localeCompareBase a b)
  | _, _ => none

/-- Translation of the `authors` column `cell` renderer (library-table/index.tsx:480-484):
`authors.map((element) => element.name).join(", ")`. -/
def authorsCellText (r : BookRecord) : String :=
  String.intercalate ", " (r.authors.map (fun a => a.name))

/-! ### Sorted row model

`@tanstack/react-table`'s `getSortedRowModel` sorts the data rows by the
column's `sortingFn` and, when every comparator returns `0`, falls back to
comparing the rows' original indices (`rowA.index - rowB.index`), so the final
order is the lexicographic order on (sort key, original index).  `withIndex`
attaches the original (fetch-order) index to each row. -/

structure IndexedRow where
  index : Nat
  row : BookRecord
deriving DecidableEq, Repr

/-- Rows paired with their original index in fetch order. -/
def withIndex (rows : List BookRecord) : List IndexedRow :=
  rows.enum.map (fun p => ⟨p.1, p.2⟩)

/-- Order in which the sorted row model emits rows when sorting ascending on
the `title` column: `a` precedes `b` if the `sortingFn` says so, with the
row-index fallback on ties. -/
def rowBefore (a b : IndexedRow) : Prop :=
  titleSortingFn a.row b.row < 0 ∨
    (titleSortingFn a.row b.row = 0 ∧ a.index ≤ b.index)

instance : DecidableRel rowBefore := fun a b => by
  unfold rowBefore
  infer_instance

/-- Sorted row model for ascending sort on the `title` column. -/
def sortedByTitle (rows : List BookRecord) : List IndexedRow :=
  (withIndex rows).insertionSort rowBefore

instance : IsTrans IndexedRow rowBefore where
  trans := by
    intro a b c hab hbc
    unfold rowBefore titleSortingFn at hab hbc ⊢
    rcases hab with h1 | ⟨h1, hi1⟩ <;> rcases hbc with h2 | ⟨h2, hi2⟩
    · rw [localeCompareBase_neg_iff] at h1 h2 ⊢
      exact Or.inl (natListLt_trans _ _ _ h1 h2)
    · rw [localeCompareBase_zero_iff] at h2
      rw [localeCompareBase_neg_iff] at h1 ⊢
      rw [← h2]
      exact Or.inl h1
    · rw [localeCompareBase_zero_iff] at h1
      rw [localeCompareBase_neg_iff] at h2 ⊢
      rw [h1]
      exact Or.inl h2
    · rw [localeCompareBase_zero_iff] at h1 h2
      right
      rw [localeCompareBase_zero_iff]
      exact ⟨h1.trans h2, hi1.trans hi2⟩

instance : IsTotal IndexedRow rowBefore where
  total := by
    intro a b
    unfold rowBefore titleSortingFn
    rcases h1 : natListLt (strKey a.row.sort) (strKey b.row.sort) with _ | _
    · rcases h2 : natListLt (strKey b.row.sort) (strKey a.row.sort) with _ | _
      · have hk := natListLt_conn _ _ h1 h2
        have hz : localeCompareBase a.row.sort b.row.sort = 0 :=
          (localeCompareBase_zero_iff _ _).mpr hk
        have hz' : localeCompareBase b.row.sort a.row.sort = 0 :=
          (localeCompareBase_zero_iff _ _).mpr hk.symm
        rcases Nat.le_total a.index b.index with hle | hle
        · exact Or.inl (Or.inr ⟨hz, hle⟩)
        · exact Or.inr (Or.inr ⟨hz', hle⟩)
      · exact Or.inr (Or.inl ((localeCompareBase_neg_iff _ _).mpr h2))
    · exact Or.inl (Or.inl ((localeCompareBase_neg_iff _ _).mpr h1))

/-! ### No-database dialog (src/features/no-database-dialog/index.tsx) -/

/-- Status payload of the `get_init_status` command (index.tsx:14-16). -/
inductive DbInitStatus
  | loaded
  | needs_setup (reason : Option String)
deriving DecidableEq, Repr

/-- Modelled from the spec: the backend behind the `get_init_status` Tauri
command is not among the frontend sources.  Per §7, `StorageUnavailable` at
startup is surfaced as a needs-setup state rather than a thrown error, so the
command is a total function of the backend state. -/
inductive BackendInit
  | ready
  | storageUnavailable (reason : String)
deriving DecidableEq, Repr

/-- Modelled from the spec: result of `get_init_status` for each backend state. -/
def get_init_status : BackendInit → DbInitStatus
  | .ready => .loaded
  | .storageUnavailable r => .needs_setup (some r)

/-- Translation of `useDbInitStatus` (index.tsx:18-37): the resolved status a
completed query leaves in the `status` state — the command's payload on
success, `needs_setup` with reason "query failed" when the invocation rejects. -/
def resolveInitStatus : Except Unit DbInitStatus → DbInitStatus
  | .ok s => s
  | .error _ => .needs_setup (some "query failed")

/-- Test `status.status === "needs_setup"` (index.tsx:75). -/
def isNeedsSetup : DbInitStatus → Bool
  | .loaded => false
  | .needs_setup _ => true

/-- Translation of the dialog `open` state (index.tsx:72-76): `false` while the
query is still pending (`status` is `null`), otherwise the needs-setup test. -/
def dialogOpenState : Option DbInitStatus → Bool
  | none => false
  | some s => isNeedsSetup s

/-! ### Setup-flow command invocations (no-database-dialog/index.tsx:42-70) -/

/-- Backend commands the setup handlers can invoke (`create_new_db`,
`open_existing_db`, and `get_init_status` via `refresh`). -/
inductive SetupCmd
  | create_new_db (folder : String)
  | open_existing_db (path : String)
  | get_init_status
deriving DecidableEq, Repr

/-- Translation of `handleCreateNew` (index.tsx:42-55) as the sequence of
backend commands it invokes for a given dialog result.  `none` is the JS
`null` returned on cancel; the `if (!folderPath) return` guard also bails on
an empty string (JS falsiness). -/
def handleCreateNew : Option String → List SetupCmd
  | none => []
  | some p =>
    if p.data.isEmpty then []
    else [SetupCmd.create_new_db p, SetupCmd.get_init_status]

/-- Translation of `handleOpenExisting` (index.tsx:57-70), same shape. -/
def handleOpenExisting : Option String → List SetupCmd
  | none => []
  | some p =>
    if p.data.isEmpty then []
    else [SetupCmd.open_existing_db p, SetupCmd.get_init_status]

/-! ### Backend status query of src/main.ts -/

/-- Shape of `DbStatus` (main.ts:16-20). -/
structure DbStatus where
  has_path : Bool
  db_path : Option String
  ready : Bool
deriving DecidableEq, Repr

/-- JS double-negation `!!path` on a nullable string: `null` and `""` are falsy. -/
def jsTruthyPath : Option String → Bool
  | none => false
  | some s => !s.data.isEmpty

/-- Translation of `getBackendStatus` (main.ts:47-57): the command result when
`get_db_status` resolves, otherwise the hard-coded fallback built from the
locally stored library path with `ready: true`.  The store reads inside the
catch block are modelled as the total value `stored`. -/
def getBackendStatus : Except Unit DbStatus → Option String → DbStatus
  | .ok s, _ => s
  | .error _, stored => { has_path := jsTruthyPath stored, db_path := stored, ready := true }

/-! ### Storage schema

Row types follow the table definitions of `architecture/0001-database.md`
(books, authors, series, books_authors_link, books_series_link, read_books).
Surrogate ids are `Nat`, timestamps are `Nat`, the `real` volume column is
`Rat`, and the optional unique `goodreads_id` columns are `Option Nat`. -/

structure BookRow where
  id : Nat
  title : String
  sort : String
  date_added : Nat
  date_published : Int
  date_modified : Nat
  page_count : Nat
  goodreads_id : Option Nat
deriving DecidableEq, Repr

structure AuthorRow where
  id : Nat
  name : String
  sort : String
  goodreads_id : Option Nat
deriving DecidableEq, Repr

structure SeriesRow where
  id : Nat
  name : String
  sort : String
  goodreads_id : Option Nat
deriving DecidableEq, Repr

structure BookAuthorLinkRow where
  book : Nat
  author : Nat
deriving DecidableEq, Repr

structure BookSeriesLinkRow where
  book : Nat
  series : Nat
  volume : Rat
deriving DecidableEq, Repr

structure ReadRow where
  id : Nat
  book : Nat
  start_date : Option Nat
  end_date : Option Nat
deriving DecidableEq, Repr

/-- Database state: the six tables plus the next value of each surrogate-key
sequence.  Link rows are kept in insertion order; the read path reproduces
association order from that list order (the insertion-order convention of
§4.2). -/
structure Db where
  books : List BookRow
  authors : List AuthorRow
  series : List SeriesRow
  books_authors_link : List BookAuthorLinkRow
  books_series_link : List BookSeriesLinkRow
  read_books : List ReadRow
  nextBookId : Nat
  nextAuthorId : Nat
  nextSeriesId : Nat
  nextReadId : Nat
deriving DecidableEq, Repr

/-- Freshly created database: empty tables, sequences starting at 1. -/
def emptyDb : Db := ⟨[], [], [], [], [], [], 1, 1, 1, 1⟩

/-- Candidate author metadata handed to `createBook` (§4.4, §6). -/
structure AuthorInput where
  name : String
  sort : String
  goodreads_id : Option Nat
deriving DecidableEq, Repr

/-- Candidate series metadata with the volume attribute. -/
structure SeriesInput where
  name : String
  sort : String
  goodreads_id : Option Nat
  volume : Rat
deriving DecidableEq, Repr

/-- Book metadata for `createBook` (timestamps are assigned by the call). -/
structure BookMeta where
  title : String
  sort : String
  date_published : Int
  page_count : Nat
  goodreads_id : Option Nat
deriving DecidableEq, Repr

/-- Partial update for `updateBook`: only provided fields are changed (§4.4). -/
structure BookPatch where
  title : Option String
  sort : Option String
  date_published : Option Int
  page_count : Option Nat
  goodreads_id : Option Nat
deriving DecidableEq, Repr

/-- Patch that provides no field. -/
def emptyPatch : BookPatch := ⟨none, none, none, none, none⟩

/-- Error taxonomy of §7. -/
inductive DbError
  | notFound
  | constraintViolation
  | storageUnavailable
  | validationError
deriving DecidableEq, Repr

/-! ### Lookup helpers of the read path -/

def findBook (db : Db) (bid : Nat) : Option BookRow :=
  db.books.find? (fun b => b.id = bid)

def findAuthor (db : Db) (aid : Nat) : Option AuthorRow :=
  db.authors.find? (fun a => a.id = aid)

def findSeries (db : Db) (sid : Nat) : Option SeriesRow :=
  db.series.find? (fun s => s.id = sid)

def authorRecordOfRow (a : AuthorRow) : AuthorRecord :=
  ⟨a.name, a.sort, a.goodreads_id⟩

/-- Modelled from the spec (§4.3): ordered author list of a book, assembled by
scanning the book-author link rows in stored (insertion) order. -/
def bookAuthors (db : Db) (bid : Nat) : List AuthorRecord :=
  (db.books_authors_link.filter (fun l => l.book = bid)).filterMap
    (fun l => (findAuthor db l.author).map authorRecordOfRow)

/-- Modelled from the spec (§4.3): ordered series-and-volume list of a book. -/
def bookSeries (db : Db) (bid : Nat) : List SeriesAndVolumeRecord :=
  (db.books_series_link.filter (fun l => l.book = bid)).filterMap
    (fun l => (findSeries db l.series).map
      (fun s => ⟨s.name, s.sort, l.volume, s.goodreads_id⟩))

/-- Modelled from the spec (§4.3): the denormalized record of one book row. -/
def recordOfBookRow (db : Db) (b : BookRow) : BookRecord :=
  ⟨b.id, b.title, b.sort, bookAuthors db b.id, bookSeries db b.id,
    b.page_count, b.goodreads_id, b.date_added, b.date_published, b.date_modified⟩

/-- Modelled from the spec (§4.3): `getBook(id) -> BookRecord | NotFound`. -/
def getBook (db : Db) (bid : Nat) : Option BookRecord :=
  (findBook db bid).map (recordOfBookRow db)

/-- Modelled from the spec (§4.3): list of all book records. -/
def listBooks (db : Db) : List BookRecord :=
  db.books.map (recordOfBookRow db)

/-- Aggregate query behind the `fetch_books` Tauri command used by the
library table. -/
def fetch_books (db : Db) : List BookRecord := listBooks db

/-! ### Composite write path (modelled from the spec, §4.4) -/

/-- Modelled from the spec: de-duplicating author resolution of `createBook` —
match on external catalog id first, fall back to exact name match, else create
a new row from the candidate metadata. -/
def resolveAuthor (db : Db) (a : AuthorInput) : Db × Nat :=
  match a.goodreads_id.bind
      (fun g => db.authors.find? (fun r => r.goodreads_id = some g)) with
  | some row => (db, row.id)
  | none =>
    match db.authors.find? (fun r => r.name = a.name) with
    | some row => (db, row.id)
    | none =>
      let row : AuthorRow := ⟨db.nextAuthorId, a.name, a.sort, a.goodreads_id⟩
      ({ db with authors := db.authors ++ [row], nextAuthorId := db.nextAuthorId + 1 },
        row.id)

/-- Modelled from the spec: resolve a whole candidate author list in order. -/
def resolveAuthors : Db → List AuthorInput → Db × List Nat
  | db, [] => (db, [])
  | db, a :: rest =>
    let r1 := resolveAuthor db a
    let r2 := resolveAuthors r1.1 rest
    (r2.1, r1.2 :: r2.2)

/-- Modelled from the spec: de-duplicating series resolution, same policy as
authors; carries the volume attribute through. -/
def resolveSeries1 (db : Db) (s : SeriesInput) : Db × (Nat × Rat) :=
  match s.goodreads_id.bind
      (fun g => db.series.find? (fun r => r.goodreads_id = some g)) with
  | some row => (db, (row.id, s.volume))
  | none =>
    match db.series.find? (fun r => r.name = s.name) with
    | some row => (db, (row.id, s.volume))
    | none =>
      let row : SeriesRow := ⟨db.nextSeriesId, s.name, s.sort, s.goodreads_id⟩
      ({ db with series := db.series ++ [row], nextSeriesId := db.nextSeriesId + 1 },
        (row.id, s.volume))

/-- Modelled from the spec: resolve a whole candidate series list in order. -/
def resolveSeriesList : Db → List SeriesInput → Db × List (Nat × Rat)
  | db, [] => (db, [])
  | db, s :: rest =>
    let r1 := resolveSeries1 db s
    let r2 := resolveSeriesList r1.1 rest
    (r2.1, r1.2 :: r2.2)

/-- Modelled from the spec (§4.4): `createBook(metadata, authors, seriesLinks)`
at call time `t` — insert the Book row (rejecting a duplicate external catalog
id as a `ConstraintViolation`), resolve/create Author and Series rows, then
set the associations in input order.  Returns the new book id. -/
def createBook (db : Db) (meta : BookMeta) (authorsIn : List AuthorInput)
    (seriesIn : List SeriesInput) (t : Nat) : Except DbError (Db × Nat) :=
  let dup := match meta.goodreads_id with
    | some g => db.books.any (fun b => b.goodreads_id = some g)
    | none => false
  if dup then .error .constraintViolation
  else
    let bid := db.nextBookId
    let row : BookRow :=
      ⟨bid, meta.title, meta.sort, t, meta.date_published, t, meta.page_count,
        meta.goodreads_id⟩
    let db1 := { db with books := db.books ++ [row], nextBookId := bid + 1 }
    let ra := resolveAuthors db1 authorsIn
    let rs := resolveSeriesList ra.1 seriesIn
    let db4 := { rs.1 with
      books_authors_link :=
        rs.1.books_authors_link ++ ra.2.map (fun aid => ⟨bid, aid⟩),
      books_series_link :=
        rs.1.books_series_link ++ rs.2.map (fun p => ⟨bid, p.1, p.2⟩) }
    .ok (db4, bid)

/-- Modelled from the spec (§4.4): apply the provided fields of a patch to a
row and stamp `date_modified` with the call time. -/
def applyPatch (b : BookRow) (p : BookPatch) (t : Nat) : BookRow :=
  { b with
    title := p.title.getD b.title
    sort := p.sort.getD b.sort
    date_published := p.date_published.getD b.date_published
    page_count := p.page_count.getD b.page_count
    goodreads_id := match p.goodreads_id with
      | some g => some g
      | none => b.goodreads_id
    date_modified := t }

/-- Modelled from the spec (§4.4): `updateBook(id, patch)` at call time `t` —
partial update of the one row, `NotFound` for a missing id,
`ConstraintViolation` when a provided external catalog id is already taken by
another book. -/
def updateBook (db : Db) (bid : Nat) (p : BookPatch) (t : Nat) :
    Except DbError Db :=
  match findBook db bid with
  | none => .error .notFound
  | some _ =>
    let dup := match p.goodreads_id with
      | some g => db.books.any (fun b => b.id ≠ bid ∧ b.goodreads_id = some g)
      | none => false
    if dup then .error .constraintViolation
    else .ok { db with
      books := db.books.map (fun b => if b.id = bid then applyPatch b p t else b) }

/-- Modelled from the spec (§4.4): `deleteBook(id)` — remove the Book row and
its link rows (plus its read events, keeping referential integrity); Author
and Series rows are never cascade-deleted. -/
def deleteBook (db : Db) (bid : Nat) : Except DbError Db :=
  match findBook db bid with
  | none => .error .notFound
  | some _ => .ok { db with
      books := db.books.filter (fun b => !(b.id = bid : Bool)),
      books_authors_link := db.books_authors_link.filter (fun l => !(l.book = bid : Bool)),
      books_series_link := db.books_series_link.filter (fun l => !(l.book = bid : Bool)),
      read_books := db.read_books.filter (fun r => !(r.book = bid : Bool)) }

/-- Modelled from the spec (§4.4): `recordReadEvent(bookId, start, end)`. -/
def recordReadEvent (db : Db) (bid : Nat) (start stop : Option Nat) :
    Except DbError Db :=
  match findBook db bid with
  | none => .error .notFound
  | some _ => .ok { db with
      read_books := db.read_books ++ [⟨db.nextReadId, bid, start, stop⟩],
      nextReadId := db.nextReadId + 1 }

/-- Modelled from the spec (§4.4): `deleteReadEvent(id)`. -/
def deleteReadEvent (db : Db) (rid : Nat) : Except DbError Db :=
  if db.read_books.any (fun r => r.id = rid) then
    .ok { db with read_books := db.read_books.filter (fun r => !(r.id = rid : Bool)) }
  else .error .notFound

/-! ### Transactions and change notification -/

/-- One composite write operation of §4.4 together with its call-time data. -/
inductive WriteOp
  | create (meta : BookMeta) (authorsIn : List AuthorInput)
      (seriesIn : List SeriesInput) (t : Nat)
  | update (bid : Nat) (p : BookPatch) (t : Nat)
  | delete (bid : Nat)
  | recordRead (bid : Nat) (start stop : Option Nat)
  | deleteRead (rid : Nat)
deriving DecidableEq, Repr

/-- Body of a composite write: the state it would commit, or its error. -/
def applyWrite (db : Db) : WriteOp → Except DbError Db
  | .create m a s t => (createBook db m a s t).map (fun r => r.1)
  | .update bid p t => updateBook db bid p t
  | .delete bid => deleteBook db bid
  | .recordRead bid s e => recordReadEvent db bid s e
  | .deleteRead rid => deleteReadEvent db rid

/-- Modelled from the spec (§4.4, §7): transactional execution — commit the
new state on success; on any error roll the whole operation back, leaving the
database untouched and handing the caller the single classifying error. -/
def runWrite (db : Db) (op : WriteOp) : Db × Option DbError :=
  match applyWrite db op with
  | .ok db' => (db', none)
  | .error e => (db, some e)

/-- Change signal of §4.5; the single constructor carries no payload. -/
inductive Signal
  | libraryChanged
deriving DecidableEq, Repr

/-- Modelled from the spec (§4.5): signals emitted by a composite write — one
payload-free "library changed" signal after a successful commit, nothing on a
rolled-back failure. -/
def writeSignals (db : Db) (op : WriteOp) : List Signal :=
  match applyWrite db op with
  | .ok _ => [Signal.libraryChanged]
  | .error _ => []

/-- Display state of the library table (library-table/index.tsx:593-596). -/
structure TableState where
  data : List BookRecord
  hadError : Bool
deriving DecidableEq, Repr

/-- Translation of `fetchBooks` (library-table/index.tsx:602-616): on a
resolved `fetch_books` invocation replace the displayed data and clear the
error; on a rejected one keep the data and record the error. -/
def fetchBooksStep (result : Except Unit (List BookRecord)) (st : TableState) :
    TableState :=
  match result with
  | .ok rows => { data := rows, hadError := false }
  | .error _ => { st with hadError := true }

/-- Translation of the `db:changed` listener (library-table/index.tsx:623-625):
each received signal re-runs `fetchBooks` against the backend, i.e. re-invokes
`fetch_books` and applies the result to the table state. -/
def onDbChangedSignal (backend : Db) (st : TableState) (_s : Signal) : TableState :=
  fetchBooksStep (.ok (fetch_books backend)) st

/-! ### Validity of a create triple and well-formedness of a state -/

/-- Input `b`, resolved after input `a`, also does not collide with the row
created for `a`: distinct names, and distinct external catalog ids where `b`
has one. -/
def authorInputsApart (a b : AuthorInput) : Prop :=
  a.name ≠ b.name ∧ (b.goodreads_id.isSome → a.goodreads_id ≠ b.goodreads_id)

/-- Apartness for series inputs, same shape. -/
def seriesInputsApart (a b : SeriesInput) : Prop :=
  a.name ≠ b.name ∧ (b.goodreads_id.isSome → a.goodreads_id ≠ b.goodreads_id)

/-- Candidate author matches no stored author row, by name or catalog id. -/
def authorFreshIn (db : Db) (a : AuthorInput) : Prop :=
  (∀ r ∈ db.authors, r.name ≠ a.name) ∧
  (∀ r ∈ db.authors, a.goodreads_id.isSome → r.goodreads_id ≠ a.goodreads_id)

/-- Candidate series matches no stored series row. -/
def seriesFreshIn (db : Db) (s : SeriesInput) : Prop :=
  (∀ r ∈ db.series, r.name ≠ s.name) ∧
  (∀ r ∈ db.series, s.goodreads_id.isSome → r.goodreads_id ≠ s.goodreads_id)

/-- Valid create triple against a state: the book's external id is not taken,
and the candidate author/series lists are fresh and pairwise apart, so that
resolution creates one new row per input. -/
def ValidInput (db : Db) (meta : BookMeta) (authorsIn : List AuthorInput)
    (seriesIn : List SeriesInput) : Prop :=
  (∀ b ∈ db.books, meta.goodreads_id.isSome → b.goodreads_id ≠ meta.goodreads_id) ∧
  (∀ a ∈ authorsIn, authorFreshIn db a) ∧
  authorsIn.Pairwise authorInputsApart ∧
  (∀ s ∈ seriesIn, seriesFreshIn db s) ∧
  seriesIn.Pairwise seriesInputsApart

/-- Well-formed state: every stored surrogate id is below its sequence value. -/
def WellFormed (db : Db) : Prop :=
  (∀ b ∈ db.books, b.id < db.nextBookId) ∧
  (∀ a ∈ db.authors, a.id < db.nextAuthorId) ∧
  (∀ s ∈ db.series, s.id < db.nextSeriesId) ∧
  (∀ l ∈ db.books_authors_link, l.book < db.nextBookId) ∧
  (∀ l ∈ db.books_series_link, l.book < db.nextBookId)

instance : DecidableRel authorInputsApart := fun a b => by
  unfold authorInputsApart; infer_instance

instance : DecidableRel seriesInputsApart := fun a b => by
  unfold seriesInputsApart; infer_instance

instance (db : Db) (a : AuthorInput) : Decidable (authorFreshIn db a) := by
  unfold authorFreshIn; infer_instance

instance (db : Db) (s : SeriesInput) : Decidable (seriesFreshIn db s) := by
  unfold seriesFreshIn; infer_instance

instance (db : Db) (meta : BookMeta) (authorsIn : List AuthorInput)
    (seriesIn : List SeriesInput) :
    Decidable (ValidInput db meta authorsIn seriesIn) := by
  unfold ValidInput; infer_instance

instance (db : Db) : Decidable (WellFormed db) := by
  unfold WellFormed; infer_instance

/-! ### Helper lemmas on list search -/

theorem find?_append_none {α : Type} (p : α → Bool) (l₁ l₂ : List α)
    (h : ∀ x ∈ l₁, p x = false) : (l₁ ++ l₂).find? p = l₂.find? p := by
  induction l₁ with
  | nil => rfl
  | cons x xs ih =>
    simp only [List.cons_append, List.find?]
    rw [h x (List.mem_cons_self x xs)]
    exact ih (fun y hy => h y (List.mem_cons_of_mem x hy))

/-- Resolution of a fresh candidate author appends exactly one new row with
the next id. -/
theorem resolveAuthor_fresh (db : Db) (a : AuthorInput)
    (h : authorFreshIn db a) :
    resolveAuthor db a =
      ({ db with
          authors := db.authors ++ [⟨db.nextAuthorId, a.name, a.sort, a.goodreads_id⟩],
          nextAuthorId := db.nextAuthorId + 1 }, db.nextAuthorId) := by
  have h1 : a.goodreads_id.bind
      (fun g => db.authors.find? (fun r => r.goodreads_id = some g)) = none := by
    cases hg : a.goodreads_id with
    | none => rfl
    | some g =>
      simp only [Option.some_bind, List.find?_eq_none, decide_eq_true_eq]
      intro x hx
      have := h.2 x hx (by simp [hg])
      simp [hg] at this
      exact this
  have h2 : db.authors.find? (fun r => r.name = a.name) = none := by
    simp only [List.find?_eq_none, decide_eq_true_eq]
    intro x hx
    exact h.1 x hx
  unfold resolveAuthor
  rw [h1, h2]

/-- Resolution of a fresh candidate series appends exactly one new row with
the next id. -/
theorem resolveSeries1_fresh (db : Db) (s : SeriesInput)
    (h : seriesFreshIn db s) :
    resolveSeries1 db s =
      ({ db with
          series := db.series ++ [⟨db.nextSeriesId, s.name, s.sort, s.goodreads_id⟩],
          nextSeriesId := db.nextSeriesId + 1 }, (db.nextSeriesId, s.volume)) := by
  have h1 : s.goodreads_id.bind
      (fun g => db.series.find? (fun r => r.goodreads_id = some g)) = none := by
    cases hg : s.goodreads_id with
    | none => rfl
    | some g =>
      simp only [Option.some_bind, List.find?_eq_none, decide_eq_true_eq]
      intro x hx
      have := h.2 x hx (by simp [hg])
      simp [hg] at this
      exact this
  have h2 : db.series.find? (fun r => r.name = s.name) = none := by
    simp only [List.find?_eq_none, decide_eq_true_eq]
    intro x hx
    exact h.1 x hx
  unfold resolveSeries1
  rw [h1, h2]

/-- Resolving a fresh, pairwise-apart candidate list only appends author rows
(with fresh ids), touches nothing else, and the returned ids look up, in the
resulting state, to rows carrying exactly the input metadata. -/
theorem resolveAuthors_spec : ∀ (l : List AuthorInput) (db : Db),
    (∀ r ∈ db.authors, r.id < db.nextAuthorId) →
    (∀ a ∈ l, authorFreshIn db a) →
    l.Pairwise authorInputsApart →
    (resolveAuthors db l).1.books = db.books ∧
    (resolveAuthors db l).1.series = db.series ∧
    (resolveAuthors db l).1.books_authors_link = db.books_authors_link ∧
    (resolveAuthors db l).1.books_series_link = db.books_series_link ∧
    (resolveAuthors db l).1.read_books = db.read_books ∧
    (resolveAuthors db l).1.nextBookId = db.nextBookId ∧
    (resolveAuthors db l).1.nextSeriesId = db.nextSeriesId ∧
    (resolveAuthors db l).1.nextReadId = db.nextReadId ∧
    (∀ r ∈ (resolveAuthors db l).1.authors, r.id < (resolveAuthors db l).1.nextAuthorId) ∧
    (∃ newRows, (resolveAuthors db l).1.authors = db.authors ++ newRows ∧
      ∀ r ∈ newRows, db.nextAuthorId ≤ r.id) ∧
    List.Forall₂ (fun (a : AuthorInput) (aid : Nat) =>
        findAuthor (resolveAuthors db l).1 aid = some ⟨aid, a.name, a.sort, a.goodreads_id⟩)
      l (resolveAuthors db l).2
  | [], db, _, _, _ => by
    refine ⟨rfl, rfl, rfl, rfl, rfl, rfl, rfl, rfl, ?_,
      ⟨[], by simp [resolveAuthors], by simp⟩, List.Forall₂.nil⟩
    intro r hr
    exact ‹∀ r ∈ db.authors, r.id < db.nextAuthorId› r hr
  | a :: rest, db, hIds, hFresh, hApart => by
    have hfa : authorFreshIn db a := hFresh a (List.mem_cons_self a rest)
    have hstep := resolveAuthor_fresh db a hfa
    set row : AuthorRow := ⟨db.nextAuthorId, a.name, a.sort, a.goodreads_id⟩ with hrow
    set db1 : Db := { db with
      authors := db.authors ++ [row], nextAuthorId := db.nextAuthorId + 1 } with hdb1
    have hunfold : resolveAuthors db (a :: rest) =
        ((resolveAuthors db1 rest).1, db.nextAuthorId :: (resolveAuthors db1 rest).2) := by
      show (let r1 := resolveAuthor db a
        let r2 := resolveAuthors r1.1 rest
        ((r2.1, r1.2 :: r2.2) : Db × List Nat)) = _
      rw [hstep]
    have hIds1 : ∀ r ∈ db1.authors, r.id < db1.nextAuthorId := by
      intro r hr
      rcases List.mem_append.1 hr with hr | hr
      · exact Nat.lt_succ_of_lt (hIds r hr)
      · rcases List.mem_singleton.1 hr with rfl
        exact Nat.lt_succ_self _
    have hFresh1 : ∀ b ∈ rest, authorFreshIn db1 b := by
      intro b hb
      have hfb := hFresh b (List.mem_cons_of_mem a hb)
      have hab : authorInputsApart a b :=
        (List.pairwise_cons.1 hApart).1 b hb
      constructor
      · intro r hr
        rcases List.mem_append.1 hr with hr | hr
        · exact hfb.1 r hr
        · rcases List.mem_singleton.1 hr with rfl
          exact hab.1
      · intro r hr hs
        rcases List.mem_append.1 hr with hr | hr
        · exact hfb.2 r hr hs
        · rcases List.mem_singleton.1 hr with rfl
          exact hab.2 hs
    have hApart1 : rest.Pairwise authorInputsApart := (List.pairwise_cons.1 hApart).2
    obtain ⟨hB, hS, hBA, hBS, hR, hNB, hNS, hNR, hI, ⟨nr, hnr, hnrid⟩, hF⟩ :=
      resolveAuthors_spec rest db1 hIds1 hFresh1 hApart1
    rw [hunfold]
    refine ⟨hB, hS, hBA, hBS, hR, hNB, hNS, hNR, hI, ?_, ?_⟩
    · refine ⟨row :: nr, ?_, ?_⟩
      · rw [hnr]
        simp [hdb1]
      · intro r hr
        rcases List.mem_cons.1 hr with rfl | hr
        · exact Nat.le_refl _
        · exact Nat.le_of_succ_le (hnrid r hr)
    · refine List.Forall₂.cons ?_ hF
      have : (resolveAuthors db1 rest).1.authors = db.authors ++ ([row] ++ nr) := by
        rw [hnr]
        simp [hdb1]
      unfold findAuthor
      rw [this, find?_append_none]
      · have hhead : ([row] ++ nr).find? (fun r => r.id = db.nextAuthorId) = some row := by
          simp [hrow]
        rw [hhead, hrow]
      · intro x hx
        have := hIds x hx
        simp only [decide_eq_false_iff_not]
        omega

/-- Series counterpart of `resolveAuthors_spec`: only series rows are
appended, and the returned (id, volume) pairs look up to rows carrying the
input metadata and carry the input volume. -/
theorem resolveSeriesList_spec : ∀ (l : List SeriesInput) (db : Db),
    (∀ r ∈ db.series, r.id < db.nextSeriesId) →
    (∀ s ∈ l, seriesFreshIn db s) →
    l.Pairwise seriesInputsApart →
    (resolveSeriesList db l).1.books = db.books ∧
    (resolveSeriesList db l).1.authors = db.authors ∧
    (resolveSeriesList db l).1.books_authors_link = db.books_authors_link ∧
    (resolveSeriesList db l).1.books_series_link = db.books_series_link ∧
    (resolveSeriesList db l).1.read_books = db.read_books ∧
    (resolveSeriesList db l).1.nextBookId = db.nextBookId ∧
    (resolveSeriesList db l).1.nextAuthorId = db.nextAuthorId ∧
    (resolveSeriesList db l).1.nextReadId = db.nextReadId ∧
    (∀ r ∈ (resolveSeriesList db l).1.series, r.id < (resolveSeriesList db l).1.nextSeriesId) ∧
    (∃ newRows, (resolveSeriesList db l).1.series = db.series ++ newRows ∧
      ∀ r ∈ newRows, db.nextSeriesId ≤ r.id) ∧
    List.Forall₂ (fun (s : SeriesInput) (p : Nat × Rat) =>
        findSeries (resolveSeriesList db l).1 p.1 =
          some ⟨p.1, s.name, s.sort, s.goodreads_id⟩ ∧ p.2 = s.volume)
      l (resolveSeriesList db l).2
  | [], db, _, _, _ => by
    refine ⟨rfl, rfl, rfl, rfl, rfl, rfl, rfl, rfl, ?_,
      ⟨[], by simp [resolveSeriesList], by simp⟩, List.Forall₂.nil⟩
    intro r hr
    exact ‹∀ r ∈ db.series, r.id < db.nextSeriesId› r hr
  | s :: rest, db, hIds, hFresh, hApart => by
    have hfs : seriesFreshIn db s := hFresh s (List.mem_cons_self s rest)
    have hstep := resolveSeries1_fresh db s hfs
    set row : SeriesRow := ⟨db.nextSeriesId, s.name, s.sort, s.goodreads_id⟩ with hrow
    set db1 : Db := { db with
      series := db.series ++ [row], nextSeriesId := db.nextSeriesId + 1 } with hdb1
    have hunfold : resolveSeriesList db (s :: rest) =
        ((resolveSeriesList db1 rest).1,
          (db.nextSeriesId, s.volume) :: (resolveSeriesList db1 rest).2) := by
      show (let r1 := resolveSeries1 db s
        let r2 := resolveSeriesList r1.1 rest
        ((r2.1, r1.2 :: r2.2) : Db × List (Nat × Rat))) = _
      rw [hstep]
    have hIds1 : ∀ r ∈ db1.series, r.id < db1.nextSeriesId := by
      intro r hr
      rcases List.mem_append.1 hr with hr | hr
      · exact Nat.lt_succ_of_lt (hIds r hr)
      · rcases List.mem_singleton.1 hr with rfl
        exact Nat.lt_succ_self _
    have hFresh1 : ∀ b ∈ rest, seriesFreshIn db1 b := by
      intro b hb
      have hfb := hFresh b (List.mem_cons_of_mem s hb)
      have hab : seriesInputsApart s b :=
        (List.pairwise_cons.1 hApart).1 b hb
      constructor
      · intro r hr
        rcases List.mem_append.1 hr with hr | hr
        · exact hfb.1 r hr
        · rcases List.mem_singleton.1 hr with rfl
          exact hab.1
      · intro r hr hs
        rcases List.mem_append.1 hr with hr | hr
        · exact hfb.2 r hr hs
        · rcases List.mem_singleton.1 hr with rfl
          exact hab.2 hs
    have hApart1 : rest.Pairwise seriesInputsApart := (List.pairwise_cons.1 hApart).2
    obtain ⟨hB, hA, hBA, hBS, hR, hNB, hNA, hNR, hI, ⟨nr, hnr, hnrid⟩, hF⟩ :=
      resolveSeriesList_spec rest db1 hIds1 hFresh1 hApart1
    rw [hunfold]
    refine ⟨hB, hA, hBA, hBS, hR, hNB, hNA, hNR, hI, ?_, ?_⟩
    · refine ⟨row :: nr, ?_, ?_⟩
      · rw [hnr]
        simp [hdb1]
      · intro r hr
        rcases List.mem_cons.1 hr with rfl | hr
        · exact Nat.le_refl _
        · exact Nat.le_of_succ_le (hnrid r hr)
    · refine List.Forall₂.cons ⟨?_, rfl⟩ hF
      have : (resolveSeriesList db1 rest).1.series = db.series ++ ([row] ++ nr) := by
        rw [hnr]
        simp [hdb1]
      unfold findSeries
      rw [this, find?_append_none]
      · have hhead : ([row] ++ nr).find? (fun r => r.id = db.nextSeriesId) = some row := by
          simp [hrow]
        rw [hhead, hrow]
      · intro x hx
        have := hIds x hx
        simp only [decide_eq_false_iff_not]
        omega

theorem findAuthor_congr {db db' : Db} (h : db.authors = db'.authors) (aid : Nat) :
    findAuthor db aid = findAuthor db' aid := by
  unfold findAuthor
  rw [h]

theorem findSeries_congr {db db' : Db} (h : db.series = db'.series) (sid : Nat) :
    findSeries db sid = findSeries db' sid := by
  unfold findSeries
  rw [h]

/-- Collapsing the author lookups of the read path along the resolution
result: the assembled author records are exactly the input metadata, in
input order. -/
theorem lookup_collapse_authors (db : Db) (bid : Nat) :
    ∀ {l : List AuthorInput} {ids : List Nat},
    List.Forall₂ (fun (a : AuthorInput) (aid : Nat) =>
        findAuthor db aid = some ⟨aid, a.name, a.sort, a.goodreads_id⟩) l ids →
    (ids.map (fun aid => (⟨bid, aid⟩ : BookAuthorLinkRow))).filterMap
        (fun lk => (findAuthor db lk.author).map authorRecordOfRow) =
      l.map (fun a => (⟨a.name, a.sort, a.goodreads_id⟩ : AuthorRecord)) := by
  intro l ids h
  induction h with
  | nil => rfl
  | cons h1 _ ih =>
    simp only [List.map_cons, List.filterMap_cons, h1, Option.map_some']
    rw [ih]
    rfl

/-- Series counterpart of `lookup_collapse_authors`. -/
theorem lookup_collapse_series (db : Db) (bid : Nat) :
    ∀ {l : List SeriesInput} {ps : List (Nat × Rat)},
    List.Forall₂ (fun (s : SeriesInput) (p : Nat × Rat) =>
        findSeries db p.1 = some ⟨p.1, s.name, s.sort, s.goodreads_id⟩ ∧
          p.2 = s.volume) l ps →
    (ps.map (fun p => (⟨bid, p.1, p.2⟩ : BookSeriesLinkRow))).filterMap
        (fun lk => (findSeries db lk.series).map
          (fun srow => (⟨srow.name, srow.sort, lk.volume, srow.goodreads_id⟩ :
            SeriesAndVolumeRecord))) =
      l.map (fun s =>
        (⟨s.name, s.sort, s.volume, s.goodreads_id⟩ : SeriesAndVolumeRecord)) := by
  intro l ps h
  induction h with
  | nil => rfl
  | cons h1 _ ih =>
    simp only [List.map_cons, List.filterMap_cons, h1.1, Option.map_some']
    rw [ih, h1.2]

/-- Claim C1: on a well-formed state, `createBook` on a valid triple succeeds
and `getBook` on the returned id yields a record whose author list and
series-and-volume list equal the input lists element-for-element, in input
order. -/
theorem createBook_getBook_roundtrip (db : Db) (meta : BookMeta)
    (authorsIn : List AuthorInput) (seriesIn : List SeriesInput) (t : Nat)
    (hwf : WellFormed db) (hval : ValidInput db meta authorsIn seriesIn) :
    ∃ db' bid rec,
      createBook db meta authorsIn seriesIn t = .ok (db', bid) ∧
      getBook db' bid = some rec ∧
      rec.authors =
        authorsIn.map (fun a => (⟨a.name, a.sort, a.goodreads_id⟩ : AuthorRecord)) ∧
      rec.series_and_volume =
        seriesIn.map (fun s =>
          (⟨s.name, s.sort, s.volume, s.goodreads_id⟩ : SeriesAndVolumeRecord)) := by
  obtain ⟨hwB, hwA, hwS, hwBA, hwBS⟩ := hwf
  obtain ⟨hvM, hvA, hvAp, hvS, hvSp⟩ := hval
  have hdup : (match meta.goodreads_id with
      | some g => db.books.any (fun b => b.goodreads_id = some g)
      | none => false) = false := by
    cases hg : meta.goodreads_id with
    | none => rfl
    | some g =>
      simp only [List.any_eq_false, decide_eq_true_eq]
      intro b hb
      have := hvM b hb (by simp [hg])
      rw [hg] at this
      exact this
  set bid := db.nextBookId with hbid
  set brow : BookRow :=
    ⟨bid, meta.title, meta.sort, t, meta.date_published, t, meta.page_count,
      meta.goodreads_id⟩ with hbrow
  set db1 : Db := { db with books := db.books ++ [brow], nextBookId := bid + 1 } with hdb1
  have hA1 : ∀ r ∈ db1.authors, r.id < db1.nextAuthorId := hwA
  have hFreshA1 : ∀ a ∈ authorsIn, authorFreshIn db1 a := hvA
  obtain ⟨aB, aS, aBA, aBS, aR, aNB, aNS, aNR, aI, aNew, aF⟩ :=
    resolveAuthors_spec authorsIn db1 hA1 hFreshA1 hvAp
  set ra := resolveAuthors db1 authorsIn with hra
  have hS1 : ∀ r ∈ ra.1.series, r.id < ra.1.nextSeriesId := by
    rw [aS, aNS]
    exact hwS
  have hFreshS1 : ∀ s ∈ seriesIn, seriesFreshIn ra.1 s := by
    intro s hs
    have := hvS s hs
    unfold seriesFreshIn at this ⊢
    rw [aS]
    exact this
  obtain ⟨sB, sA, sBA, sBS, sR, sNB, sNA, sNR, sI, sNew, sF⟩ :=
    resolveSeriesList_spec seriesIn ra.1 hS1 hFreshS1 hvSp
  set rs := resolveSeriesList ra.1 seriesIn with hrs
  set db4 : Db := { rs.1 with
    books_authors_link :=
      rs.1.books_authors_link ++ ra.2.map (fun aid => ⟨bid, aid⟩),
    books_series_link :=
      rs.1.books_series_link ++ rs.2.map (fun p => ⟨bid, p.1, p.2⟩) } with hdb4
  have hcreate : createBook db meta authorsIn seriesIn t = .ok (db4, bid) := by
    unfold createBook
    rw [hdup]
    simp only [if_false, Bool.false_eq_true]
  have hbooks4 : db4.books = db.books ++ [brow] := by
    show rs.1.books = db.books ++ [brow]
    rw [sB, aB]
  have hfind : findBook db4 bid = some brow := by
    unfold findBook
    rw [hbooks4, find?_append_none]
    · simp [hbrow]
    · intro x hx
      have := hwB x hx
      simp only [decide_eq_false_iff_not]
      omega
  have hgb : getBook db4 bid = some (recordOfBookRow db4 brow) := by
    unfold getBook
    rw [hfind, Option.map_some']
  refine ⟨db4, bid, recordOfBookRow db4 brow, hcreate, hgb, ?_, ?_⟩
  · show bookAuthors db4 brow.id =
      authorsIn.map (fun a => (⟨a.name, a.sort, a.goodreads_id⟩ : AuthorRecord))
    unfold bookAuthors
    have hlinks : db4.books_authors_link =
        db.books_authors_link ++ ra.2.map (fun aid => ⟨bid, aid⟩) := by
      show rs.1.books_authors_link ++ ra.2.map (fun aid => ⟨bid, aid⟩) = _
      rw [sBA, aBA]
    have hbrowid : brow.id = bid := rfl
    rw [hlinks, hbrowid, List.filter_append]
    have hold : db.books_authors_link.filter (fun l => l.book = bid) = [] := by
      rw [List.filter_eq_nil]
      intro l hl
      have := hwBA l hl
      simp only [decide_eq_true_eq]
      omega
    have hnew : (ra.2.map (fun aid => (⟨bid, aid⟩ : BookAuthorLinkRow))).filter
        (fun l => l.book = bid) = ra.2.map (fun aid => ⟨bid, aid⟩) := by
      rw [List.filter_eq_self]
      intro l hl
      rcases List.mem_map.1 hl with ⟨aid, _, rfl⟩
      simp
    rw [hold, hnew, List.nil_append]
    have haf : List.Forall₂ (fun (a : AuthorInput) (aid : Nat) =>
        findAuthor db4 aid = some ⟨aid, a.name, a.sort, a.goodreads_id⟩)
        authorsIn ra.2 := by
      refine List.Forall₂.imp ?_ aF
      intro a aid h
      rw [← h]
      exact findAuthor_congr (by show rs.1.authors = ra.1.authors; rw [sA]) aid
    exact lookup_collapse_authors db4 bid haf
  · show bookSeries db4 brow.id =
      seriesIn.map (fun s =>
        (⟨s.name, s.sort, s.volume, s.goodreads_id⟩ : SeriesAndVolumeRecord))
    unfold bookSeries
    have hlinks : db4.books_series_link =
        db.books_series_link ++ rs.2.map (fun p => ⟨bid, p.1, p.2⟩) := by
      show rs.1.books_series_link ++ rs.2.map (fun p => ⟨bid, p.1, p.2⟩) = _
      rw [sBS, aBS]
    have hbrowid : brow.id = bid := rfl
    rw [hlinks, hbrowid, List.filter_append]
    have hold : db.books_series_link.filter (fun l => l.book = bid) = [] := by
      rw [List.filter_eq_nil]
      intro l hl
      have := hwBS l hl
      simp only [decide_eq_true_eq]
      omega
    have hnew : (rs.2.map (fun p => (⟨bid, p.1, p.2⟩ : BookSeriesLinkRow))).filter
        (fun l => l.book = bid) = rs.2.map (fun p => ⟨bid, p.1, p.2⟩) := by
      rw [List.filter_eq_self]
      intro l hl
      rcases List.mem_map.1 hl with ⟨p, _, rfl⟩
      simp
    rw [hold, hnew, List.nil_append]
    have hsf : List.Forall₂ (fun (s : SeriesInput) (p : Nat × Rat) =>
        findSeries db4 p.1 = some ⟨p.1, s.name, s.sort, s.goodreads_id⟩ ∧
          p.2 = s.volume) seriesIn rs.2 := by
      refine List.Forall₂.imp ?_ sF
      intro s p h
      exact ⟨h.1, h.2⟩
    exact lookup_collapse_series db4 bid hsf

/-! ### Claim theorems for the presentation layer -/

/-- Row pair sharing a title sort key, fetched with the larger book id first. -/
def exRowTieA : BookRecord := ⟨2, "Dune Messiah", "dune", [], [], 1, none, 0, 0, 0⟩

/-- Second row of the tie pair. -/
def exRowTieB : BookRecord := ⟨1, "DUNE", "dune", [], [], 1, none, 0, 0, 0⟩

/-- Claim C3 counterexample: two records with equal title sort keys are NOT
emitted in ascending order of their ids — the sorted row model keeps them in
fetch order, so ids come out as [2, 1]. -/
theorem title_sort_tie_not_ascending_id :
    exRowTieA.sort = exRowTieB.sort ∧
    (sortedByTitle [exRowTieA, exRowTieB]).map (fun r => r.row.book_id) = [2, 1] := by
  decide

/-- Claim C3 as amended: ascending title sorting is deterministic — the output
is a permutation of the indexed input, ordered by the `sortingFn` comparison
of the `sort` keys with ties broken by the original row index (fetch order),
not by book id. -/
theorem sortedByTitle_deterministic (rows : List BookRecord) :
    List.Sorted rowBefore (sortedByTitle rows) ∧
    (sortedByTitle rows).Perm (withIndex rows) :=
  ⟨List.sorted_insertionSort rowBefore _, List.perm_insertionSort rowBefore _⟩

/-- Record of a book with zero author associations. -/
def emptyAuthorsRow : BookRecord := ⟨3, "Anthology", "anthology", [], [], 10, none, 0, 0, 0⟩

/-- Claim C4 (code bug): on a record with an empty author list the Authors
cell renders fine (empty join), but the Authors `sortingFn` evaluates
`authors[0].sort` whose element access yields no value — the JS code throws
a `TypeError` — so comparing rows for Authors-column sorting is not total. -/
theorem authorsSortingFn_crashes_on_empty_authors :
    emptyAuthorsRow.authors = [] ∧
    authorsSortAccess emptyAuthorsRow = none ∧
    authorsSortingFn emptyAuthorsRow emptyAuthorsRow = none ∧
    authorsCellText emptyAuthorsRow = "" := by
  refine ⟨rfl, rfl, rfl, ?_⟩
  rfl

/-- Claim C5: the init-status query never surfaces a crash — an unavailable
store yields a `needs_setup` status from the backend query, a rejected
invocation is mapped by the hook to `needs_setup` with reason "query failed",
and the setup dialog is open exactly when the resolved status is
`needs_setup` (closed while the query is still pending). -/
theorem init_status_needs_setup_never_crashes (q : Except Unit DbInitStatus) :
    dialogOpenState (some (resolveInitStatus q)) = isNeedsSetup (resolveInitStatus q) ∧
    resolveInitStatus (.error ()) = .needs_setup (some "query failed") ∧
    (∀ r, get_init_status (.storageUnavailable r) = .needs_setup (some r)) ∧
    isNeedsSetup (resolveInitStatus (.error ())) = true ∧
    dialogOpenState none = false :=
  ⟨rfl, rfl, fun _ => rfl, rfl, rfl⟩

/-- Claim C9: cancelling either file dialog (a `null` result) performs no
backend call at all — no create/open command and no status refresh — and the
mutation commands are only ever invoked with a path the dialog returned. -/
theorem setup_dialog_cancel_no_mutation (r : Option String) :
    (handleCreateNew none = [] ∧ handleOpenExisting none = []) ∧
    (∀ f, SetupCmd.create_new_db f ∈ handleCreateNew r → r = some f) ∧
    (∀ p, SetupCmd.open_existing_db p ∈ handleOpenExisting r → r = some p) := by
  refine ⟨⟨rfl, rfl⟩, ?_, ?_⟩
  · intro f hf
    cases r with
    | none => simp [handleCreateNew] at hf
    | some p =>
      simp only [handleCreateNew] at hf
      split_ifs at hf with he
      · simp at hf
      · rcases List.mem_cons.1 hf with h | h
        · cases h
          rfl
        · exact absurd (List.mem_singleton.1 h) (by simp)
  · intro f hf
    cases r with
    | none => simp [handleOpenExisting] at hf
    | some p =>
      simp only [handleOpenExisting] at hf
      split_ifs at hf with he
      · simp at hf
      · rcases List.mem_cons.1 hf with h | h
        · cases h
          rfl
        · exact absurd (List.mem_singleton.1 h) (by simp)

/-- Claim C9 witness: a non-null selected path does reach the create command. -/
theorem setup_dialog_cancel_no_mutation_witness :
    SetupCmd.create_new_db "library.db" ∈ handleCreateNew (some "library.db") ∧
    (some "library.db" : Option String) = some "library.db" :=
  ⟨by decide,
    (setup_dialog_cancel_no_mutation (some "library.db")).2.1 "library.db" (by decide)⟩

/-- Claim C10: `getBackendStatus` is total — it returns the command's payload
when `get_db_status` resolves, and on a failed invocation falls back to the
locally stored library path with `ready` hard-coded to `true`, regardless of
whether the backend has a usable database. -/
theorem getBackendStatus_total_fallback (s : DbStatus) (stored : Option String) :
    getBackendStatus (.ok s) stored = s ∧
    getBackendStatus (.error ()) stored =
      { has_path := jsTruthyPath stored, db_path := stored, ready := true } ∧
    (getBackendStatus (.error ()) stored).ready = true ∧
    (getBackendStatus (.error ()) stored).db_path = stored :=
  ⟨rfl, rfl, rfl, rfl⟩

/-! ### Claim theorems for the storage core -/

/-- Claim C1 witness: the §8 example scenario — Dune by Frank Herbert, volume
1 of the Dune series — round-trips through an empty database. -/
theorem createBook_getBook_roundtrip_witness :
    WellFormed emptyDb ∧
    ValidInput emptyDb ⟨"Dune", "Dune", 0, 412, some 234225⟩
      [⟨"Frank Herbert", "Herbert, Frank", none⟩] [⟨"Dune", "Dune", none, 1⟩] ∧
    ∃ db' bid rec,
      createBook emptyDb ⟨"Dune", "Dune", 0, 412, some 234225⟩
          [⟨"Frank Herbert", "Herbert, Frank", none⟩] [⟨"Dune", "Dune", none, 1⟩] 100 =
        .ok (db', bid) ∧
      getBook db' bid = some rec ∧
      rec.authors = [⟨"Frank Herbert", "Herbert, Frank", none⟩] ∧
      rec.series_and_volume = [⟨"Dune", "Dune", 1, none⟩] :=
  ⟨by decide, by decide,
    createBook_getBook_roundtrip emptyDb ⟨"Dune", "Dune", 0, 412, some 234225⟩
      [⟨"Frank Herbert", "Herbert, Frank", none⟩] [⟨"Dune", "Dune", none, 1⟩] 100
      (by decide) (by decide)⟩

/-- Claim C2: a composite write that fails leaves the whole database exactly
as it was (transactional rollback) and hands the caller the single
classifying error; in particular no book's `date_modified` moves — a failed
`updateBook` leaves the target row's `date_modified` at its prior value. -/
theorem runWrite_rollback (db : Db) (op : WriteOp) (e : DbError)
    (h : (runWrite db op).2 = some e) :
    (runWrite db op).1 = db ∧
    ∀ bid, (getBook ((runWrite db op).1) bid).map (fun r => r.date_modified) =
      (getBook db bid).map (fun r => r.date_modified) := by
  unfold runWrite at h ⊢
  cases happ : applyWrite db op with
  | ok db' =>
    rw [happ] at h
    simp at h
  | error e' =>
    exact ⟨rfl, fun _ => rfl⟩

/-- Claim C2 witness: updating a missing book id fails with `NotFound` and
changes nothing. -/
theorem runWrite_rollback_witness :
    (runWrite emptyDb (WriteOp.update 1 emptyPatch 5)).2 = some DbError.notFound ∧
    (runWrite emptyDb (WriteOp.update 1 emptyPatch 5)).1 = emptyDb :=
  ⟨by decide,
    (runWrite_rollback emptyDb (WriteOp.update 1 emptyPatch 5) DbError.notFound
      (by decide)).1⟩

/-- Claim C6: a committed composite write emits exactly one payload-free
"library changed" signal, and the table's `db:changed` listener handles every
such signal by re-invoking `fetch_books` and replacing the displayed data
with the freshly fetched result. -/
theorem commit_emits_signal_consumer_refetches (db : Db) (op : WriteOp) (db' : Db)
    (h : applyWrite db op = .ok db') :
    writeSignals db op = [Signal.libraryChanged] ∧
    runWrite db op = (db', none) ∧
    ∀ st s, s ∈ writeSignals db op →
      onDbChangedSignal db' st s = ⟨fetch_books db', false⟩ := by
  unfold writeSignals runWrite
  rw [h]
  exact ⟨rfl, rfl, fun _ _ _ => rfl⟩

/-- Concrete successful write used to witness claim C6. -/
def duneCreateOp : WriteOp := .create ⟨"Dune", "Dune", 0, 412, none⟩ [] [] 7

/-- Claim C6 witness: creating a book on the empty database commits and emits
the signal. -/
theorem commit_emits_signal_witness :
    applyWrite emptyDb duneCreateOp = .ok ((runWrite emptyDb duneCreateOp).1) ∧
    writeSignals emptyDb duneCreateOp = [Signal.libraryChanged] :=
  ⟨by rfl,
    (commit_emits_signal_consumer_refetches emptyDb duneCreateOp
      ((runWrite emptyDb duneCreateOp).1) (by rfl)).1⟩

/-- Claim C7: deleting a stored book removes exactly its Book row and its
book-author and book-series link rows; the author table, the series table and
every link row of a different book survive unchanged — no cascade to Author
or Series rows even when the deleted book was their last reference. -/
theorem deleteBook_frame (db : Db) (bid : Nat) (b : BookRow)
    (h : findBook db bid = some b) :
    ∃ db', deleteBook db bid = .ok db' ∧
      db'.books = db.books.filter (fun r => !(r.id = bid : Bool)) ∧
      db'.books_authors_link =
        db.books_authors_link.filter (fun l => !(l.book = bid : Bool)) ∧
      db'.books_series_link =
        db.books_series_link.filter (fun l => !(l.book = bid : Bool)) ∧
      db'.authors = db.authors ∧
      db'.series = db.series ∧
      (∀ r ∈ db'.books, r.id ≠ bid) ∧
      (∀ l ∈ db.books_authors_link, l.book ≠ bid → l ∈ db'.books_authors_link) ∧
      (∀ l ∈ db.books_series_link, l.book ≠ bid → l ∈ db'.books_series_link) := by
  unfold deleteBook
  rw [h]
  refine ⟨_, rfl, rfl, rfl, rfl, rfl, rfl, ?_, ?_, ?_⟩
  · intro r hr
    have := (List.mem_filter.1 hr).2
    simp only [Bool.not_eq_true', decide_eq_false_iff_not] at this
    exact this
  · intro l hl hne
    exact List.mem_filter.2 ⟨hl, by simpa using hne⟩
  · intro l hl hne
    exact List.mem_filter.2 ⟨hl, by simpa using hne⟩

/-- Small populated state used to witness claim C7: one book by one author in
one series, where the book is the author's and the series' only reference. -/
def exDb : Db :=
  ⟨[⟨1, "Dune", "Dune", 0, 0, 0, 412, none⟩],
    [⟨1, "Frank Herbert", "Herbert, Frank", none⟩],
    [⟨1, "Dune", "Dune", none⟩],
    [⟨1, 1⟩], [⟨1, 1, 1⟩], [], 2, 2, 2, 1⟩

/-- Claim C7 witness: deleting the only book keeps the orphaned author and
series rows. -/
theorem deleteBook_frame_witness :
    findBook exDb 1 = some ⟨1, "Dune", "Dune", 0, 0, 0, 412, none⟩ ∧
    ∃ db', deleteBook exDb 1 = .ok db' ∧
      db'.books = exDb.books.filter (fun r => !(r.id = 1 : Bool)) ∧
      db'.books_authors_link =
        exDb.books_authors_link.filter (fun l => !(l.book = 1 : Bool)) ∧
      db'.books_series_link =
        exDb.books_series_link.filter (fun l => !(l.book = 1 : Bool)) ∧
      db'.authors = exDb.authors ∧
      db'.series = exDb.series ∧
      (∀ r ∈ db'.books, r.id ≠ 1) ∧
      (∀ l ∈ exDb.books_authors_link, l.book ≠ 1 → l ∈ db'.books_authors_link) ∧
      (∀ l ∈ exDb.books_series_link, l.book ≠ 1 → l ∈ db'.books_series_link) :=
  ⟨by decide,
    deleteBook_frame exDb 1 ⟨1, "Dune", "Dune", 0, 0, 0, 412, none⟩ (by decide)⟩

/-! ### Timestamp invariant (claim C8)

A trace of composite writes is run against the empty database with a
monotone clock: every event happens no earlier than the previous one (`dt` is
the elapsed time before a time-stamped call). -/

theorem resolveAuthor_books (db : Db) (a : AuthorInput) :
    (resolveAuthor db a).1.books = db.books := by
  unfold resolveAuthor
  split
  · rfl
  · split
    · rfl
    · rfl

theorem resolveAuthors_books : ∀ (l : List AuthorInput) (db : Db),
    (resolveAuthors db l).1.books = db.books
  | [], _ => rfl
  | a :: rest, db => by
    show (resolveAuthors (resolveAuthor db a).1 rest).1.books = db.books
    rw [resolveAuthors_books rest _, resolveAuthor_books]

theorem resolveSeries1_books (db : Db) (s : SeriesInput) :
    (resolveSeries1 db s).1.books = db.books := by
  unfold resolveSeries1
  split
  · rfl
  · split
    · rfl
    · rfl

theorem resolveSeriesList_books : ∀ (l : List SeriesInput) (db : Db),
    (resolveSeriesList db l).1.books = db.books
  | [], _ => rfl
  | s :: rest, db => by
    show (resolveSeriesList (resolveSeries1 db s).1 rest).1.books = db.books
    rw [resolveSeriesList_books rest _, resolveSeries1_books]

/-- Outcomes of `createBook`: rejection, or success with the book table
extended by the one row stamped with the call time. -/
theorem createBook_cases (db : Db) (m : BookMeta) (al : List AuthorInput)
    (sl : List SeriesInput) (t : Nat) :
    createBook db m al sl t = .error .constraintViolation ∨
    ∃ db' bid, createBook db m al sl t = .ok (db', bid) ∧
      db'.books = db.books ++
        [⟨db.nextBookId, m.title, m.sort, t, m.date_published, t, m.page_count,
          m.goodreads_id⟩] := by
  cases hdup : (match m.goodreads_id with
      | some g => db.books.any (fun b => b.goodreads_id = some g)
      | none => false) with
  | true =>
    left
    unfold createBook
    rw [hdup]
    exact rfl
  | false =>
    right
    unfold createBook
    rw [hdup]
    refine ⟨_, _, rfl, ?_⟩
    show (resolveSeriesList (resolveAuthors _ al).1 sl).1.books = _
    rw [resolveSeriesList_books, resolveAuthors_books]

/-- Outcomes of `updateBook`: an error, or success with exactly the target
row patched and re-stamped. -/
theorem updateBook_cases (db : Db) (bid : Nat) (p : BookPatch) (t : Nat) :
    updateBook db bid p t = .error .notFound ∨
    updateBook db bid p t = .error .constraintViolation ∨
    updateBook db bid p t = .ok { db with
      books := db.books.map (fun b => if b.id = bid then applyPatch b p t else b) } := by
  cases hf : findBook db bid with
  | none =>
    left
    unfold updateBook
    rw [hf]
  | some row =>
    cases hdup : (match p.goodreads_id with
        | some g => db.books.any (fun b => b.id ≠ bid ∧ b.goodreads_id = some g)
        | none => false) with
    | true =>
      right
      left
      unfold updateBook
      rw [hf, hdup]
      exact rfl
    | false =>
      right
      right
      unfold updateBook
      rw [hf, hdup]
      exact rfl

/-- Per-book timestamp invariant at clock value `t`. -/
def TimeInv (db : Db) (t : Nat) : Prop :=
  ∀ b ∈ db.books, b.date_added ≤ b.date_modified ∧ b.date_modified ≤ t

theorem timeInv_mono {db : Db} {t t' : Nat} (h : TimeInv db t) (hle : t ≤ t') :
    TimeInv db t' :=
  fun b hb => ⟨(h b hb).1, Nat.le_trans (h b hb).2 hle⟩

/-- Composite write with the clock attached: time-stamped calls carry the
elapsed time `dt` since the previous event. -/
inductive LibEvent
  | create (meta : BookMeta) (authorsIn : List AuthorInput)
      (seriesIn : List SeriesInput) (dt : Nat)
  | update (bid : Nat) (p : BookPatch) (dt : Nat)
  | delete (bid : Nat)
  | recordRead (bid : Nat) (start stop : Option Nat)
  | deleteRead (rid : Nat)
deriving DecidableEq, Repr

/-- One transactional write against the running state and clock. -/
def stepEvent : Db × Nat → LibEvent → Db × Nat
  | (db, t), .create m al sl dt => ((runWrite db (.create m al sl (t + dt))).1, t + dt)
  | (db, t), .update bid p dt => ((runWrite db (.update bid p (t + dt))).1, t + dt)
  | (db, t), .delete bid => ((runWrite db (.delete bid)).1, t)
  | (db, t), .recordRead bid s e => ((runWrite db (.recordRead bid s e)).1, t)
  | (db, t), .deleteRead rid => ((runWrite db (.deleteRead rid)).1, t)

/-- State reached by a trace of composite writes from the empty database. -/
def runTrace (tr : List LibEvent) : Db × Nat :=
  tr.foldl stepEvent (emptyDb, 0)

theorem stepEvent_timeInv (st : Db × Nat) (ev : LibEvent)
    (h : TimeInv st.1 st.2) :
    TimeInv (stepEvent st ev).1 (stepEvent st ev).2 := by
  obtain ⟨db, t⟩ := st
  cases ev with
  | create m al sl dt =>
    show TimeInv (runWrite db (.create m al sl (t + dt))).1 (t + dt)
    unfold runWrite
    rcases createBook_cases db m al sl (t + dt) with herr | ⟨db', bid, hok, hbooks⟩
    · have ha : applyWrite db (.create m al sl (t + dt)) = .error .constraintViolation := by
        show (createBook db m al sl (t + dt)).map (fun r => r.1) = _
        rw [herr]
        rfl
      rw [ha]
      exact timeInv_mono h (Nat.le_add_right t dt)
    · have ha : applyWrite db (.create m al sl (t + dt)) = .ok db' := by
        show (createBook db m al sl (t + dt)).map (fun r => r.1) = _
        rw [hok]
        rfl
      rw [ha]
      intro b hb
      rw [hbooks] at hb
      rcases List.mem_append.1 hb with hb | hb
      · exact ⟨(h b hb).1, Nat.le_trans (h b hb).2 (Nat.le_add_right t dt)⟩
      · rcases List.mem_singleton.1 hb with rfl
        exact ⟨Nat.le_refl _, Nat.le_refl _⟩
  | update bid p dt =>
    show TimeInv (runWrite db (.update bid p (t + dt))).1 (t + dt)
    unfold runWrite
    rcases updateBook_cases db bid p (t + dt) with herr | herr | hok
    · have ha : applyWrite db (.update bid p (t + dt)) = .error .notFound := herr
      rw [ha]
      exact timeInv_mono h (Nat.le_add_right t dt)
    · have ha : applyWrite db (.update bid p (t + dt)) = .error .constraintViolation := herr
      rw [ha]
      exact timeInv_mono h (Nat.le_add_right t dt)
    · have ha : applyWrite db (.update bid p (t + dt)) = .ok _ := hok
      rw [ha]
      intro b hb
      rcases List.mem_map.1 hb with ⟨orig, horig, rfl⟩
      by_cases hid : orig.id = bid
      · rw [if_pos hid]
        refine ⟨?_, Nat.le_refl _⟩
        show orig.date_added ≤ t + dt
        exact Nat.le_trans (h orig horig).1
          (Nat.le_trans (h orig horig).2 (Nat.le_add_right t dt))
      · rw [if_neg hid]
        exact ⟨(h orig horig).1, Nat.le_trans (h orig horig).2 (Nat.le_add_right t dt)⟩
  | delete bid =>
    show TimeInv (runWrite db (.delete bid)).1 t
    unfold runWrite
    show TimeInv (match deleteBook db bid with
      | .ok db' => (db', (none : Option DbError))
      | .error e => (db, some e)).1 t
    unfold deleteBook
    cases findBook db bid
    · exact h
    · intro b hb
      exact h b (List.mem_of_mem_filter hb)
  | recordRead bid s e =>
    show TimeInv (runWrite db (.recordRead bid s e)).1 t
    unfold runWrite
    show TimeInv (match recordReadEvent db bid s e with
      | .ok db' => (db', (none : Option DbError))
      | .error e => (db, some e)).1 t
    unfold recordReadEvent
    cases findBook db bid
    · exact h
    · exact h
  | deleteRead rid =>
    show TimeInv (runWrite db (.deleteRead rid)).1 t
    unfold runWrite
    show TimeInv (match deleteReadEvent db rid with
      | .ok db' => (db', (none : Option DbError))
      | .error e => (db, some e)).1 t
    unfold deleteReadEvent
    split_ifs
    · exact h
    · exact h

theorem runTrace_timeInv_aux : ∀ (tr : List LibEvent) (st : Db × Nat),
    TimeInv st.1 st.2 →
    TimeInv (tr.foldl stepEvent st).1 (tr.foldl stepEvent st).2
  | [], _, h => h
  | ev :: tr, st, h => runTrace_timeInv_aux tr _ (stepEvent_timeInv st ev h)

/-- Claim C8: in every state reachable by composite writes under a monotone
clock, every Book row satisfies `date_added ≤ date_modified` — `createBook`
stamps both with the call time, and `updateBook` re-stamps `date_modified`
with the (no earlier) time of its call. -/
theorem date_added_le_date_modified (tr : List LibEvent) (b : BookRow)
    (hb : b ∈ (runTrace tr).1.books) : b.date_added ≤ b.date_modified := by
  have h0 : TimeInv emptyDb 0 := fun r hr => absurd hr (by simp [emptyDb])
  exact ((runTrace_timeInv_aux tr (emptyDb, 0) h0) b hb).1

/-- Trace used to witness claim C8: one create, then one update later. -/
def traceW : List LibEvent :=
  [.create ⟨"Dune", "Dune", 0, 412, none⟩ [] [] 9,
    .update 1 ⟨some "Dune (II)", none, none, none, none⟩ 5]

/-- Claim C8 witness: the row created at time 9 and updated at time 14. -/
theorem date_added_le_date_modified_witness :
    (⟨1, "Dune (II)", "Dune", 9, 0, 14, 412, none⟩ : BookRow) ∈ (runTrace traceW).1.books ∧
    (9 : Nat) ≤ 14 :=
  ⟨by decide,
    date_added_le_date_modified traceW ⟨1, "Dune (II)", "Dune", 9, 0, 14, 412, none⟩
      (by decide)⟩

end Promethea
